import Mathlib

/-!
A verification development for the xtemplate library: a capability-gated
template function surface with a dynamic value coercion engine, polymorphic
slice operations and a non-local return signal.

The Go sources are embedded shallowly:
* Go `(T, error)` results become `Except XError T` (or an explicit pair where
  the zero value matters).
* Go machine integers become `Int`/`Nat` with the explicit width bounds the
  source checks against; the platform-width `int`/`uint` are fixed at 64 bits.
* Go `float64`/`float32` values are modelled as exact rationals (`Rat`);
  IEEE rounding, NaN and infinities are not modelled — no theorem below
  depends on them.
* Stateful aspects (the caller's slice backing array, the output writer) are
  passed explicitly: an operation that could mutate them returns the
  post-state next to its result.
* Host collaborators (text/template execution, net/url, strconv) are either
  parameters of the embedding or modelled from their documented behaviour.
-/

set_option linter.unusedVariables false
set_option exponentiation.threshold 1100

namespace Xtemplate

/-- One (namespace, operation) identifier, source funcs.Func. -/
structure Func where
  Namespace : String
  Name : String
deriving DecidableEq

namespace funcs

/-- Modelled from the spec: generated constant funcs.ConvToBool (funcs.gen.go is not under src/). -/
def ConvToBool : Func := ⟨"conv", "ToBool"⟩

/-- Modelled from the spec: generated constant funcs.ConvToBools. -/
def ConvToBools : Func := ⟨"conv", "ToBools"⟩

/-- Modelled from the spec: generated constant funcs.ConvToString. -/
def ConvToString : Func := ⟨"conv", "ToString"⟩

/-- Modelled from the spec: generated constant funcs.ConvToFloat64. -/
def ConvToFloat64 : Func := ⟨"conv", "ToFloat64"⟩

/-- Modelled from the spec: generated constant funcs.ConvToFloat32. -/
def ConvToFloat32 : Func := ⟨"conv", "ToFloat32"⟩

/-- Modelled from the spec: generated constant funcs.ConvToInt64. -/
def ConvToInt64 : Func := ⟨"conv", "ToInt64"⟩

/-- Modelled from the spec: generated constant funcs.ConvToInt32. -/
def ConvToInt32 : Func := ⟨"conv", "ToInt32"⟩

/-- Modelled from the spec: generated constant funcs.ConvToInt16. -/
def ConvToInt16 : Func := ⟨"conv", "ToInt16"⟩

/-- Modelled from the spec: generated constant funcs.ConvToInt8. -/
def ConvToInt8 : Func := ⟨"conv", "ToInt8"⟩

/-- Modelled from the spec: generated constant funcs.ConvToInt. -/
def ConvToInt : Func := ⟨"conv", "ToInt"⟩

/-- Modelled from the spec: generated constant funcs.ConvToUint64. -/
def ConvToUint64 : Func := ⟨"conv", "ToUint64"⟩

/-- Modelled from the spec: generated constant funcs.ConvToUint32. -/
def ConvToUint32 : Func := ⟨"conv", "ToUint32"⟩

/-- Modelled from the spec: generated constant funcs.ConvToUint16. -/
def ConvToUint16 : Func := ⟨"conv", "ToUint16"⟩

/-- Modelled from the spec: generated constant funcs.ConvToUint8. -/
def ConvToUint8 : Func := ⟨"conv", "ToUint8"⟩

/-- Modelled from the spec: generated constant funcs.ConvToUint. -/
def ConvToUint : Func := ⟨"conv", "ToUint"⟩

/-- Modelled from the spec: generated constant funcs.SliceNew. -/
def SliceNew : Func := ⟨"slice", "New"⟩

/-- Modelled from the spec: generated constant funcs.SliceSort. -/
def SliceSort : Func := ⟨"slice", "Sort"⟩

/-- Modelled from the spec: generated constant funcs.SliceUnique. -/
def SliceUnique : Func := ⟨"slice", "Unique"⟩

/-- Modelled from the spec: generated constant funcs.URLJoinPath. -/
def URLJoinPath : Func := ⟨"url", "JoinPath"⟩

/-- Modelled from the spec: generated constant funcs.StringsIndexAny. -/
def StringsIndexAny : Func := ⟨"strings", "IndexAny"⟩

/-- Modelled from the spec: generated constant funcs.JSONMarshal. -/
def JSONMarshal : Func := ⟨"json", "Marshal"⟩

/-- Modelled from the spec: generated constant funcs.TmplExec. -/
def TmplExec : Func := ⟨"tmpl", "Exec"⟩

/-- Modelled from the spec: funcs.NamespacesAndTheirFunctions, the generated
registry mapping each namespace to its known operation names (funcs.gen.go is
generated and not under src/).  Contents reconstructed from the spec's
namespace table and the operation methods present under src/. -/
def NamespacesAndTheirFunctions : List (String × List String) :=
  [("conv",
    ["ToBool", "ToBools", "ToString", "ToStrings",
     "ToFloat64", "ToFloat64s", "ToFloat32", "ToFloat32s",
     "ToInt64", "ToInt64s", "ToInt32", "ToInt32s", "ToInt16", "ToInt16s",
     "ToInt8", "ToInt8s", "ToInt", "ToInts",
     "ToUint64", "ToUint64s", "ToUint32", "ToUint32s", "ToUint16", "ToUint16s",
     "ToUint8", "ToUint8s", "ToUint", "ToUints"]),
   ("cmp", ["Or"]),
   ("dict", ["New", "HasKey", "HasValue", "Keys"]),
   ("filepath", ["Abs", "Base", "Clean", "Dir", "Ext", "Join", "Rel", "ToSlash"]),
   ("json", ["Compact", "HTMLEscape", "Indent", "Marshal", "MarshalIndent", "Unmarshal", "Valid"]),
   ("os",
    ["Chdir", "Chmod", "Chown", "Chtimes", "Clearenv", "Environ", "Executable",
     "Exit", "Expand", "ExpandEnv", "Getegid", "Getenv", "Geteuid", "Getgid",
     "Getgroups", "Getpagesize", "Getpid", "Getppid", "Getuid", "Getwd",
     "Hostname", "IsExist", "IsNotExist", "IsPathSeparator", "IsPermission",
     "IsTimeout", "Lchown", "Link", "LookupEnv", "Mkdir", "MkdirAll",
     "MkdirTemp", "NewSyscallError", "Pipe", "ReadFile", "Readlink", "Remove",
     "RemoveAll", "Rename", "SameFile", "Setenv", "Symlink", "TempDir",
     "Truncate", "Unsetenv", "UserCacheDir", "UserConfigDir", "UserHomeDir",
     "WriteFile"]),
   ("path", ["Base", "Clean", "Dir", "Ext", "Join"]),
   ("regexp",
    ["FindAllString", "FindAllStringIndex", "FindAllStringSubmatch",
     "FindAllStringSubmatchIndex", "FindString", "FindStringIndex",
     "FindStringSubmatch", "FindStringSubmatchIndex", "MatchString",
     "QuoteMeta", "ReplaceAllLiteralString", "ReplaceAllString", "Split"]),
   ("slice",
    ["New", "NewStrings", "NewInts", "NewInt64s", "NewFloat64s", "NewBools",
     "Contains", "Reverse", "Sort", "Append", "Prepend", "Len", "Unique",
     "Compact"]),
   ("strings",
    ["Compare", "Contains", "ContainsAny", "ContainsRune", "Count", "Cut",
     "CutPrefix", "CutSuffix", "Equal", "EqualFold", "Fields", "HasPrefix",
     "HasSuffix", "Index", "IndexAny", "IndexByte", "IndexRune", "Join",
     "LastIndex", "LastIndexAny", "LastIndexByte", "Repeat", "Replace",
     "ReplaceAll", "Split", "SplitAfter", "SplitAfterN", "SplitN", "ToLower",
     "ToTitle", "ToUpper", "ToValidUTF8", "Trim", "TrimLeft", "TrimPrefix",
     "TrimRight", "TrimSpace", "TrimSuffix"]),
   ("tmpl", ["Exec"]),
   ("url", ["JoinPath", "PathEscape", "PathUnescape", "QueryEscape", "QueryUnescape"])]

/-- The namespaces known to the registry. -/
def registryNamespaces : List String := NamespacesAndTheirFunctions.map (fun p => p.1)

end funcs

/-- A dynamic (interface-typed) Go value as classified by the coercion engine
via reflect.  Pointer indirection and the Stringer / byte-slice special cases
of toString are not modelled.  Values of any unsupported kind (map, struct,
chan, func, complex, ...) are collapsed into `other`, carrying the text that
fmt's %v verb would print for them; `nilV` is the untyped nil interface
(reflect kind Invalid). -/
inductive Value where
  | str (s : String)
  | boolean (b : Bool)
  | i8 (v : Int)
  | i16 (v : Int)
  | i32 (v : Int)
  | i64 (v : Int)
  | iV (v : Int)
  | u8 (v : Nat)
  | u16 (v : Nat)
  | u32 (v : Nat)
  | u64 (v : Nat)
  | uV (v : Nat)
  | f32 (v : Rat)
  | f64 (v : Rat)
  | nilV
  | other (rendered : String)
deriving DecidableEq

/-- The error values produced by the embedded code.  Each constructor records
the data the corresponding Go error carries; `wrapped` models fmt.Errorf with
a %w verb (an error annotated with a message, unwrappable by errors.As). -/
inductive XError where
  | funcNotAllowed (f : Func)
  | returnErr (value : Value)
  | convStrFailed (s : String) (target : String)
  | convValFailed (v : Value) (target : String)
  | wouldOverflowInt (i : Int)
  | wouldOverflowUint (n : Nat)
  | wouldOverflowUintToInt (n : Nat)
  | wouldOverflowIntToUint (i : Int)
  | wouldOverflowFloat32 (q : Rat)
  | cannotSortAnySlice
  | cannotCompactAnySlice
  | argNotSlice
  | firstArgMustBeSlice
  | jsonMarshalBadKey (k : Value)
  | hostErr (msg : String)
  | wrapped (msg : String) (inner : XError)
deriving DecidableEq

/-- errors.As with a ReturnError target: search the unwrap chain for a
ReturnError and extract its value. -/
def asReturnError : XError → Option Value
  | .returnErr v => some v
  | .wrapped _ inner => asReturnError inner
  | _ => none

/-! ### strconv (host library), modelled from its documented behaviour

The coercion engine calls strconv.ParseInt / ParseUint with base 0 and
bitSize 64, and strconv.ParseFloat with bitSize 64.  The callers only branch
on err being nil or not, so the models below return Option: none covers both
syntax and range errors. -/

/-- Go strconv's lower(c): c | 0x20. -/
def lowerChar (c : Char) : Char := Char.ofNat (c.toNat ||| 32)

/-- The digit value of a character as in the ParseUint loop: decimal digits
and (case-insensitive) letters a..z. -/
def digitValGo (c : Char) : Option Nat :=
  if '0' ≤ c ∧ c ≤ '9' then some (c.toNat - '0'.toNat)
  else if 'a' ≤ lowerChar c ∧ lowerChar c ≤ 'z' then some ((lowerChar c).toNat - 'a'.toNat + 10)
  else none

/-- The scanning state of strconv's underscoreOK, written as the character
Go's implementation tracks: caret for the beginning, zero for a digit or base
prefix, the underscore itself, and an exclamation mark for anything else. -/
def underscoreOKBody (hex : Bool) : List Char → Char → Bool
  | [], saw => saw ≠ '_'
  | c :: cs, saw =>
    if ('0' ≤ c ∧ c ≤ '9') ∨ (hex ∧ 'a' ≤ lowerChar c ∧ lowerChar c ≤ 'f') then
      underscoreOKBody hex cs '0'
    else if c = '_' then
      if saw ≠ '0' then false else underscoreOKBody hex cs '_'
    else underscoreOKBody hex cs '!'

/-- strconv's underscoreOK: underscores are allowed only between the base
prefix and a digit or between successive digits. -/
def underscoreOKGo (s : List Char) : Bool :=
  let s1 : List Char :=
    match s with
    | c :: rest => if c = '-' ∨ c = '+' then rest else s
    | [] => s
  match s1 with
  | c0 :: c1 :: rest =>
    if c0 = '0' ∧ (lowerChar c1 = 'b' ∨ lowerChar c1 = 'o' ∨ lowerChar c1 = 'x') then
      underscoreOKBody (lowerChar c1 = 'x') rest '0'
    else underscoreOKBody false s1 '^'
  | _ => underscoreOKBody false s1 '^'

/-- The digit-accumulation loop of strconv.ParseUint with underscores allowed
(we only model base-0 calls); tracks whether an underscore was seen.  The
source's cutoff/overflow tests collapse, over unbounded Nat, to the single
bound test against maxVal. -/
def parseUintLoop (base : Nat) (maxVal : Nat) : List Char → Nat → Bool → Option (Nat × Bool)
  | [], n, saw => some (n, saw)
  | c :: cs, n, saw =>
    if c = '_' then parseUintLoop base maxVal cs n true
    else
      match digitValGo c with
      | none => none
      | some d =>
        if base ≤ d then none
        else
          let n1 := n * base + d
          if maxVal < n1 then none else parseUintLoop base maxVal cs n1 saw

/-- strconv.ParseUint(s, 0, 64): detect the 0b/0o/0x/leading-zero base
prefix, accumulate digits, then validate underscore placement. -/
def goParseUint64 (s0 : List Char) : Option Nat :=
  match s0 with
  | [] => none
  | _ =>
    let p : Nat × List Char :=
      match s0 with
      | '0' :: rest =>
        match rest with
        | c :: rest2 =>
          if rest2 ≠ [] ∧ lowerChar c = 'b' then (2, rest2)
          else if rest2 ≠ [] ∧ lowerChar c = 'o' then (8, rest2)
          else if rest2 ≠ [] ∧ lowerChar c = 'x' then (16, rest2)
          else (8, rest)
        | [] => (8, [])
      | _ => (10, s0)
    match parseUintLoop p.1 (2 ^ 64 - 1) p.2 0 false with
    | none => none
    | some (n, saw) => if saw ∧ ¬ underscoreOKGo s0 then none else some n

/-- strconv.ParseInt(s, 0, 64): strip the sign, parse the rest as unsigned,
then check the signed 64-bit range (ParseUint's range error also ends up as
an out-of-range error here, so both collapse to none). -/
def goParseInt64 (s : List Char) : Option Int :=
  match s with
  | [] => none
  | c :: rest =>
    let neg := c = '-'
    let body := if c = '+' ∨ c = '-' then rest else s
    match goParseUint64 body with
    | none => none
    | some un =>
      if neg then
        if 2 ^ 63 < un then none else some (-(un : Int))
      else
        if 2 ^ 63 ≤ un then none else some (un : Int)

/-- Largest finite float64, (2 - 2^-52) * 2^1023, as an exact rational. -/
def maxFloat64 : Rat := (2 ^ 53 - 1) * 2 ^ 971

/-- Largest finite float32, (2 - 2^-23) * 2^127, as an exact rational. -/
def maxFloat32 : Rat := (2 ^ 24 - 1) * 2 ^ 104

/-- Leading decimal digits of a character list, and the remainder. -/
def takeDigits : List Char → List Char × List Char
  | [] => ([], [])
  | c :: cs =>
    if '0' ≤ c ∧ c ≤ '9' then
      let p := takeDigits cs
      (c :: p.1, p.2)
    else ([], c :: cs)

/-- Numeric value of a list of decimal digit characters. -/
def digitsToNat (ds : List Char) : Nat :=
  ds.foldl (fun n c => n * 10 + (c.toNat - 48)) 0

/-- The exact value of a decimal floating-point literal, kept as the pair
(num, pow10) denoting num / 10 ^ pow10.  Rational arithmetic in the ambient
library is irreducible, so the parser computes on this integer pair and the
value is converted to Rat only where a float-typed result is produced. -/
abbrev FloatParts := Int × Nat

/-- The rational value denoted by a FloatParts pair. -/
def floatPartsToRat (p : FloatParts) : Rat := (p.1 : Rat) / (10 : Rat) ^ p.2

/-- ParseFloat reports a range error for magnitudes beyond float64; callers
treat that as failure, modelled as none.  num / 10^pow10 exceeds maxFloat64
exactly when num exceeds maxFloat64 * 10^pow10, an integer comparison. -/
def inRangeF (p : FloatParts) : Option FloatParts :=
  let bound : Int := (((2 ^ 53 - 1) * 2 ^ 971 * 10 ^ p.2 : Nat) : Int)
  if bound < p.1 ∨ p.1 < -bound then none else some p

/-- Mantissa-and-exponent tail of the ParseFloat model: ip/fp are the digits
around the decimal point, rest must be empty or a complete e/E exponent. -/
def finishFloat (neg : Bool) (ip fp : List Char) (rest : List Char) : Option FloatParts :=
  let m : Int := (digitsToNat (ip ++ fp) : Int)
  let signed : Int := if neg then -m else m
  match rest with
  | [] => inRangeF (signed, fp.length)
  | e :: r =>
    if e = 'e' ∨ e = 'E' then
      match r with
      | [] => none
      | c :: r2 =>
        let eneg := c = '-'
        let ebody := if c = '+' ∨ c = '-' then r2 else r
        let p := takeDigits ebody
        if p.1 = [] ∨ p.2 ≠ [] then none
        else
          let ex : Nat := digitsToNat p.1
          if eneg then inRangeF (signed, fp.length + ex)
          else inRangeF (signed * (10 ^ ex : Nat), fp.length)
    else none

/-- Modelled from the spec: strconv.ParseFloat (a host library routine not
under src/) on its decimal forms, producing the exact value of the literal.
Hex floats, the inf/nan tokens, underscores and round-to-nearest are not
modelled; out-of-range magnitudes fail as in the source. -/
def goParseFloat (s : List Char) : Option FloatParts :=
  match s with
  | [] => none
  | c :: rest =>
    let neg := c = '-'
    let body := if c = '+' ∨ c = '-' then rest else s
    let p := takeDigits body
    match p.2 with
    | '.' :: r =>
      let q := takeDigits r
      if p.1 = [] ∧ q.1 = [] then none else finishFloat neg p.1 q.1 q.2
    | _ => if p.1 = [] then none else finishFloat neg p.1 [] p.2

/-- Go's int64(f) conversion: truncation toward zero; for out-of-range
values the Go spec leaves the result implementation-dependent, and we model
the common amd64 behaviour where any out-of-range float converts to
math.MinInt64. -/
def int64OfFloat (q : Rat) : Int :=
  let t : Int := q.num.tdiv (q.den : Int)
  if t < -(2 ^ 63) ∨ 2 ^ 63 - 1 < t then -(2 ^ 63) else t

/-- int64OfFloat on the integer-pair representation of the parsed literal:
truncation toward zero is num tdiv 10^pow10. -/
def int64OfFloatParts (p : FloatParts) : Int :=
  let t : Int := p.1.tdiv ((10 ^ p.2 : Nat) : Int)
  if t < -((2 ^ 63 : Nat) : Int) ∨ ((2 ^ 63 - 1 : Nat) : Int) < t then -((2 ^ 63 : Nat) : Int)
  else t

/-- Go's uint64(f) conversion: truncation toward zero; out-of-range results
are implementation-dependent (Go spec) and modelled as 2^63.  No theorem
below depends on this choice. -/
def uint64OfFloat (q : Rat) : Nat :=
  let t : Int := q.num.tdiv (q.den : Int)
  if t < 0 ∨ (2 ^ 64 - 1 : Int) < t then 2 ^ 63 else t.toNat

/-- uint64OfFloat on the integer-pair representation of the parsed literal. -/
def uint64OfFloatParts (p : FloatParts) : Nat :=
  let t : Int := p.1.tdiv ((10 ^ p.2 : Nat) : Int)
  if t < 0 ∨ ((2 ^ 64 - 1 : Nat) : Int) < t then 2 ^ 63 else t.toNat

/-! ### fmt.Sprint (host library), modelled for the kinds a Value can hold -/

/-- Decimal digit character. -/
def decChar (d : Nat) : Char := Char.ofNat (48 + d)

/-- Big-endian decimal digits of a natural number; the fuel argument only
drives the structural recursion and is always sufficient at n + 1. -/
def natDecAux : Nat → Nat → List Char
  | 0, _ => []
  | fuel + 1, n => if n < 10 then [decChar n] else natDecAux fuel (n / 10) ++ [decChar (n % 10)]

/-- Decimal rendering of a natural number, as fmt's %v produces for unsigned
integers. -/
def goSprintNat (n : Nat) : String := ⟨natDecAux (n + 1) n⟩

/-- Decimal rendering of an integer, as fmt's %v produces for signed
integers. -/
def goSprintInt (i : Int) : String :=
  if i < 0 then "-" ++ goSprintNat i.natAbs else goSprintNat i.natAbs

/-- Rendering of a float value.  Go prints the shortest decimal that round
trips ('g' format); that formatting is not modelled — no claim evaluates the
rendering of a float — so the exact rational is printed as numerator and,
when non-trivial, denominator. -/
def goSprintFloat (q : Rat) : String :=
  if q.den = 1 then goSprintInt q.num
  else goSprintInt q.num ++ "/" ++ goSprintNat q.den

/-- fmt.Sprint of a single dynamic value. -/
def sprintValue : Value → String
  | .str s => s
  | .boolean b => if b then "true" else "false"
  | .i8 i => goSprintInt i
  | .i16 i => goSprintInt i
  | .i32 i => goSprintInt i
  | .i64 i => goSprintInt i
  | .iV i => goSprintInt i
  | .u8 n => goSprintNat n
  | .u16 n => goSprintNat n
  | .u32 n => goSprintNat n
  | .u64 n => goSprintNat n
  | .uV n => goSprintNat n
  | .f32 q => goSprintFloat q
  | .f64 q => goSprintFloat q
  | .nilV => "<nil>"
  | .other rendered => rendered

/-! ### The coercion engine (src/fn_conv.go) -/

/-- The comma stripping both string parsers start with: strings.Contains
followed by strings.ReplaceAll of "," with the empty string. -/
def stripCommas (str : String) : String :=
  if str.toList.contains ',' then (str.toList.filter (fun c => c ≠ ',')).asString else str

/-- source strToFloat64: commas stripped, then ParseInt base 0 (so octal and
hex literals convert), falling back to ParseFloat. -/
def strToFloat64 (str : String) : Except XError Rat :=
  let s := stripCommas str
  match goParseInt64 s.toList with
  | some iv => .ok (iv : Rat)
  | none =>
    match goParseFloat s.toList with
    | some fv => .ok (floatPartsToRat fv)
    | none => .error (.convStrFailed s "float64")

/-- source strToInt64: commas stripped, ParseInt base 0, falling back to
ParseFloat whose result is converted by Go's int64(float64) cast. -/
def strToInt64 (str : String) : Except XError Int :=
  let s := stripCommas str
  match goParseInt64 s.toList with
  | some iv => .ok iv
  | none =>
    match goParseFloat s.toList with
    | some fv => .ok (int64OfFloatParts fv)
    | none => .error (.convStrFailed s "int64")

/-- source strToUint64: commas stripped, ParseUint base 0, falling back to
ParseFloat whose result is converted by Go's uint64(float64) cast. -/
def strToUint64 (str : String) : Except XError Nat :=
  let s := stripCommas str
  match goParseUint64 s.toList with
  | some iv => .ok iv
  | none =>
    match goParseFloat s.toList with
    | some fv => .ok (uint64OfFloatParts fv)
    | none => .error (.convStrFailed s "uint64")

/-- source toBool: explicit bool and string cases (truthy vocabulary, then
numeric truthiness via strToFloat64 with the error ignored), then the reflect
switch mapping every numeric kind to a comparison with 1; everything else is
false. -/
def toBool (v : Value) : Bool :=
  match v with
  | .boolean b => b
  | .str s =>
    let t := s.toLower
    if t = "1" ∨ t = "t" ∨ t = "true" ∨ t = "yes" then true
    else
      let f : Rat :=
        match strToFloat64 t with
        | .ok f => f
        | .error _ => 0
      decide (f = 1)
  | .i8 i => decide (i = 1)
  | .i16 i => decide (i = 1)
  | .i32 i => decide (i = 1)
  | .i64 i => decide (i = 1)
  | .iV i => decide (i = 1)
  | .u8 n => decide (n = 1)
  | .u16 n => decide (n = 1)
  | .u32 n => decide (n = 1)
  | .u64 n => decide (n = 1)
  | .uV n => decide (n = 1)
  | .f32 q => decide (q = 1)
  | .f64 q => decide (q = 1)
  | .nilV => false
  | .other _ => false

/-- source toBools: element-wise toBool. -/
def toBools (l : List Value) : List Bool := l.map toBool

/-- source toString: nil becomes the empty string, strings pass through,
anything else is fmt.Sprint (the Stringer and byte-slice cases are not
modelled). -/
def toString (v : Value) : String :=
  match v with
  | .nilV => ""
  | .str s => s
  | v => sprintValue v

/-- source toStrings: element-wise toString. -/
def toStrings (l : List Value) : List String := l.map toString

/-- source toFloat64: strings parse, every numeric kind casts exactly, bool
maps to 1/0, anything else is an unsupported-kind error carrying the value
and the target name. -/
def toFloat64 (v : Value) : Except XError Rat :=
  match v with
  | .str s => strToFloat64 s
  | .i8 i => .ok (i : Rat)
  | .i16 i => .ok (i : Rat)
  | .i32 i => .ok (i : Rat)
  | .i64 i => .ok (i : Rat)
  | .iV i => .ok (i : Rat)
  | .u8 n => .ok (n : Rat)
  | .u16 n => .ok (n : Rat)
  | .u32 n => .ok (n : Rat)
  | .u64 n => .ok (n : Rat)
  | .uV n => .ok (n : Rat)
  | .f32 q => .ok q
  | .f64 q => .ok q
  | .boolean b => .ok (if b then 1 else 0)
  | .nilV => .error (.convValFailed v "float64")
  | .other _ => .error (.convValFailed v "float64")

/-- source toFloat32: toFloat64 then the float32 magnitude check (rounding
of the in-range result to float32 precision is not modelled). -/
def toFloat32 (v : Value) : Except XError Rat :=
  match toFloat64 v with
  | .error e => .error e
  | .ok f =>
    if maxFloat32 < f ∨ f < -maxFloat32 then .error (.wouldOverflowFloat32 f)
    else .ok f

/-- source toInt64: strings parse; signed kinds pass through; uint8/16/32
widen; uint/uint64 check the int64 bound; floats take Go's int64(float64)
cast; bool maps to 1/0; anything else is an unsupported-kind error (whose
message names int64). -/
def toInt64 (v : Value) : Except XError Int :=
  match v with
  | .str s => strToInt64 s
  | .i8 i => .ok i
  | .i16 i => .ok i
  | .i32 i => .ok i
  | .i64 i => .ok i
  | .iV i => .ok i
  | .u8 n => .ok (n : Int)
  | .u16 n => .ok (n : Int)
  | .u32 n => .ok (n : Int)
  | .u64 n => if 2 ^ 63 - 1 < n then .error (.wouldOverflowUintToInt n) else .ok (n : Int)
  | .uV n => if 2 ^ 63 - 1 < n then .error (.wouldOverflowUintToInt n) else .ok (n : Int)
  | .f32 q => .ok (int64OfFloat q)
  | .f64 q => .ok (int64OfFloat q)
  | .boolean b => .ok (if b then 1 else 0)
  | .nilV => .error (.convValFailed v "int64")
  | .other _ => .error (.convValFailed v "int64")

/-- source toInt (generic over int, int8, int16, int32): toInt64 then the
width's range check.  The platform-width int is taken as 64 bits. -/
def toInt (v : Value) (minValue maxValue : Int) : Except XError Int :=
  match toInt64 v with
  | .error e => .error e
  | .ok i64 =>
    if i64 < minValue ∨ maxValue < i64 then .error (.wouldOverflowInt i64)
    else .ok i64

/-- source toUint64: strings parse; unsigned kinds pass through; int8/16/32
take Go's wrapping uint64(int64) cast without any range check; int/int64
reject negatives; floats take Go's uint64(float64) cast; bool maps to 1/0;
anything else is an unsupported-kind error (whose message, as in the source,
names int64). -/
def toUint64 (v : Value) : Except XError Nat :=
  match v with
  | .str s => strToUint64 s
  | .u8 n => .ok n
  | .u16 n => .ok n
  | .u32 n => .ok n
  | .u64 n => .ok n
  | .uV n => .ok n
  | .i8 i => .ok ((i % (2 ^ 64 : Int)).toNat)
  | .i16 i => .ok ((i % (2 ^ 64 : Int)).toNat)
  | .i32 i => .ok ((i % (2 ^ 64 : Int)).toNat)
  | .i64 i => if i < 0 then .error (.wouldOverflowIntToUint i) else .ok i.toNat
  | .iV i => if i < 0 then .error (.wouldOverflowIntToUint i) else .ok i.toNat
  | .f32 q => .ok (uint64OfFloat q)
  | .f64 q => .ok (uint64OfFloat q)
  | .boolean b => .ok (if b then 1 else 0)
  | .nilV => .error (.convValFailed v "int64")
  | .other _ => .error (.convValFailed v "int64")

/-- source toUint (generic over uint, uint8, uint16, uint32): toUint64 then
the width's bound check.  The platform-width uint is taken as 64 bits. -/
def toUint (v : Value) (maxValue : Nat) : Except XError Nat :=
  match toUint64 v with
  | .error e => .error e
  | .ok n => if maxValue < n then .error (.wouldOverflowUint n) else .ok n

/-! ### The gated operation surface -/

/-- source rootContext: the capability set injected into every namespace
handle.  The Go map[funcs.Func]{} is modelled as a list with its membership
predicate; the template pointer is not carried because sub-evaluation is
passed in explicitly where needed. -/
structure rootContext where
  allowedFunctionSet : List Func

/-- Namespace handle for the coercion operations, source type Conv. -/
abbrev Conv := rootContext

/-- Namespace handle for the slice operations, source type Slice. -/
abbrev Slice := rootContext

/-- Namespace handle for template execution, source type Tmpl. -/
abbrev Tmpl := rootContext

/-- Namespace handle for the url pass-through operations, source type URL. -/
abbrev URL := rootContext

def Conv.ToBool (ctx : Conv) (inp : Value) : Except XError Bool :=
  if funcs.ConvToBool ∉ ctx.allowedFunctionSet then .error (.funcNotAllowed funcs.ConvToBool)
  else .ok (toBool inp)

def Conv.ToBools (ctx : Conv) (inp : List Value) : Except XError (List Bool) :=
  if funcs.ConvToBools ∉ ctx.allowedFunctionSet then .error (.funcNotAllowed funcs.ConvToBools)
  else .ok (toBools inp)

def Conv.ToString (ctx : Conv) (inp : Value) : Except XError String :=
  if funcs.ConvToString ∉ ctx.allowedFunctionSet then .error (.funcNotAllowed funcs.ConvToString)
  else .ok (toString inp)

def Conv.ToFloat64 (ctx : Conv) (v : Value) : Except XError Rat :=
  if funcs.ConvToFloat64 ∉ ctx.allowedFunctionSet then .error (.funcNotAllowed funcs.ConvToFloat64)
  else toFloat64 v

def Conv.ToFloat32 (ctx : Conv) (v : Value) : Except XError Rat :=
  if funcs.ConvToFloat32 ∉ ctx.allowedFunctionSet then .error (.funcNotAllowed funcs.ConvToFloat32)
  else toFloat32 v

def Conv.ToInt64 (ctx : Conv) (v : Value) : Except XError Int :=
  if funcs.ConvToInt64 ∉ ctx.allowedFunctionSet then .error (.funcNotAllowed funcs.ConvToInt64)
  else toInt64 v

def Conv.ToInt32 (ctx : Conv) (v : Value) : Except XError Int :=
  if funcs.ConvToInt32 ∉ ctx.allowedFunctionSet then .error (.funcNotAllowed funcs.ConvToInt32)
  else toInt v (-2147483648) 2147483647

def Conv.ToInt16 (ctx : Conv) (v : Value) : Except XError Int :=
  if funcs.ConvToInt16 ∉ ctx.allowedFunctionSet then .error (.funcNotAllowed funcs.ConvToInt16)
  else toInt v (-32768) 32767

def Conv.ToInt8 (ctx : Conv) (v : Value) : Except XError Int :=
  if funcs.ConvToInt8 ∉ ctx.allowedFunctionSet then .error (.funcNotAllowed funcs.ConvToInt8)
  else toInt v (-128) 127

def Conv.ToInt (ctx : Conv) (v : Value) : Except XError Int :=
  if funcs.ConvToInt ∉ ctx.allowedFunctionSet then .error (.funcNotAllowed funcs.ConvToInt)
  else toInt v (-9223372036854775808) 9223372036854775807

def Conv.ToUint64 (ctx : Conv) (v : Value) : Except XError Nat :=
  if funcs.ConvToUint64 ∉ ctx.allowedFunctionSet then .error (.funcNotAllowed funcs.ConvToUint64)
  else toUint64 v

def Conv.ToUint32 (ctx : Conv) (v : Value) : Except XError Nat :=
  if funcs.ConvToUint32 ∉ ctx.allowedFunctionSet then .error (.funcNotAllowed funcs.ConvToUint32)
  else toUint v 4294967295

def Conv.ToUint16 (ctx : Conv) (v : Value) : Except XError Nat :=
  if funcs.ConvToUint16 ∉ ctx.allowedFunctionSet then .error (.funcNotAllowed funcs.ConvToUint16)
  else toUint v 65535

def Conv.ToUint8 (ctx : Conv) (v : Value) : Except XError Nat :=
  if funcs.ConvToUint8 ∉ ctx.allowedFunctionSet then .error (.funcNotAllowed funcs.ConvToUint8)
  else toUint v 255

def Conv.ToUint (ctx : Conv) (v : Value) : Except XError Nat :=
  if funcs.ConvToUint ∉ ctx.allowedFunctionSet then .error (.funcNotAllowed funcs.ConvToUint)
  else toUint v 18446744073709551615

/-! ### Slice operations (source Slice methods)

A typed Go slice argument is one constructor of SliceVal.  Operations that
in Go could touch the caller's backing array return, next to their result,
the state of that array after the call; the source clones before sorting, so
the post-state always equals the argument. -/

/-- The dynamic slice argument of the polymorphic collection operations. -/
inductive SliceVal where
  | anys (l : List Value)
  | bools (l : List Bool)
  | float32s (l : List Rat)
  | float64s (l : List Rat)
  | strs (l : List String)
  | ints (l : List Int)
  | int8s (l : List Int)
  | int16s (l : List Int)
  | int32s (l : List Int)
  | int64s (l : List Int)
  | uint8s (l : List Nat)
  | uint16s (l : List Nat)
  | uint32s (l : List Nat)
  | uint64s (l : List Nat)
deriving DecidableEq

/-- slices.Clone: a fresh backing array with the same contents — the
identity on the value level. -/
def goClone {α : Type} (l : List α) : List α := l

/-- slices.Sort: ascending order.  Over a linear order the sorted
permutation of a list is unique, so insertion sort is extensionally the
pdqsort the host library uses. -/
def goSliceSort {α : Type} [LinearOrder α] (l : List α) : List α :=
  l.insertionSort (fun a b => a ≤ b)

/-- source sortBool: the three-way comparator ordering false before true,
i.e. the ascending sort for Bool's order. -/
def sortBool (l : List Bool) : List Bool := goSliceSort l

/-- source uniqSlice's loop: seen-set membership decides whether an element
is kept; the Go map of seen keys is the list accumulated here. -/
def uniqSliceAux {α : Type} [DecidableEq α] (seen : List α) : List α → List α
  | [] => []
  | v :: rest =>
    if v ∈ seen then uniqSliceAux seen rest
    else v :: uniqSliceAux (v :: seen) rest

/-- source uniqSlice: first occurrences, in order. -/
def uniqSlice {α : Type} [DecidableEq α] (l : List α) : List α := uniqSliceAux [] l

def Slice.New (ctx : Slice) (vals : List Value) : Except XError (List Value) :=
  if funcs.SliceNew ∉ ctx.allowedFunctionSet then .error (.funcNotAllowed funcs.SliceNew)
  else .ok vals

/-- source Slice.Sort (Sort is a reserved word in Lean): gate check, policy
rejection of []any, and per-kind clone-then-sort. -/
def Slice.SortOp (ctx : Slice) (s : SliceVal) : Except XError SliceVal × SliceVal :=
  if funcs.SliceSort ∉ ctx.allowedFunctionSet then
    (.error (.funcNotAllowed funcs.SliceSort), s)
  else
    match s with
    | .anys _ => (.error .cannotSortAnySlice, s)
    | .bools l => (.ok (.bools (sortBool (goClone l))), s)
    | .float32s l => (.ok (.float32s (goSliceSort (goClone l))), s)
    | .float64s l => (.ok (.float64s (goSliceSort (goClone l))), s)
    | .strs l => (.ok (.strs (goSliceSort (goClone l))), s)
    | .ints l => (.ok (.ints (goSliceSort (goClone l))), s)
    | .int8s l => (.ok (.int8s (goSliceSort (goClone l))), s)
    | .int16s l => (.ok (.int16s (goSliceSort (goClone l))), s)
    | .int32s l => (.ok (.int32s (goSliceSort (goClone l))), s)
    | .int64s l => (.ok (.int64s (goSliceSort (goClone l))), s)
    | .uint8s l => (.ok (.uint8s (goSliceSort (goClone l))), s)
    | .uint16s l => (.ok (.uint16s (goSliceSort (goClone l))), s)
    | .uint32s l => (.ok (.uint32s (goSliceSort (goClone l))), s)
    | .uint64s l => (.ok (.uint64s (goSliceSort (goClone l))), s)

/-- source Slice.Unique: gate check and per-kind uniqSlice; the result is a
freshly built list, the argument is untouched. -/
def Slice.Unique (ctx : Slice) (s : SliceVal) : Except XError SliceVal × SliceVal :=
  if funcs.SliceUnique ∉ ctx.allowedFunctionSet then
    (.error (.funcNotAllowed funcs.SliceUnique), s)
  else
    match s with
    | .anys l => (.ok (.anys (uniqSlice l)), s)
    | .bools l => (.ok (.bools (uniqSlice l)), s)
    | .float32s l => (.ok (.float32s (uniqSlice l)), s)
    | .float64s l => (.ok (.float64s (uniqSlice l)), s)
    | .strs l => (.ok (.strs (uniqSlice l)), s)
    | .ints l => (.ok (.ints (uniqSlice l)), s)
    | .int8s l => (.ok (.int8s (uniqSlice l)), s)
    | .int16s l => (.ok (.int16s (uniqSlice l)), s)
    | .int32s l => (.ok (.int32s (uniqSlice l)), s)
    | .int64s l => (.ok (.int64s (uniqSlice l)), s)
    | .uint8s l => (.ok (.uint8s (uniqSlice l)), s)
    | .uint16s l => (.ok (.uint16s (uniqSlice l)), s)
    | .uint32s l => (.ok (.uint32s (uniqSlice l)), s)
    | .uint64s l => (.ok (.uint64s (uniqSlice l)), s)

/-- source URL.JoinPath, the representative pass-through operation: gate
check, then the host library call, supplied here as the parameter host. -/
def URL.JoinPath (host : String → List String → Except XError String)
    (ctx : URL) (base : String) (elems : List String) : Except XError String :=
  if funcs.URLJoinPath ∉ ctx.allowedFunctionSet then .error (.funcNotAllowed funcs.URLJoinPath)
  else host base elems

/-- Namespace handle for the strings pass-through operations, source type
Strings. -/
abbrev Strings := rootContext

/-- source Strings.IndexAny (fn_strings.go): unlike every neighbouring
strings operation, the body is the bare host call — there is no gate check
at all.  The host strings.IndexAny is passed in as host. -/
def Strings.IndexAny (host : String → String → Int) (ctx : Strings)
    (s1 chars : String) : Except XError Int :=
  .ok (host s1 chars)

/-- Namespace handle for the json pass-through operations, source type
JSON. -/
abbrev JSON := rootContext

/-- The dynamic argument of json.Marshal as its type switch sees it: a
map[any]any (whose entries are listed in iteration order), the
map[string]any the normalization produces, or any other value. -/
inductive MarshalArg where
  | mapAnyAny (entries : List (Value × Value))
  | mapStringAny (entries : List (String × Value))
  | plain (v : Value)
deriving DecidableEq

/-- The key-conversion loop inside json.Marshal: every key must be a string,
otherwise the conversion fails with the map-key error.  Go iterates the map
in unspecified order; the list order stands in for it, which only fixes
which offending key the error names. -/
def mapKeysToStrings : List (Value × Value) → Except XError (List (String × Value))
  | [] => .ok []
  | (k, v) :: rest =>
    match k with
    | .str s =>
      match mapKeysToStrings rest with
      | .error e => .error e
      | .ok m => .ok ((s, v) :: m)
    | _ => .error (.jsonMarshalBadKey k)

/-- The map[any]any normalization at the top of json.Marshal: a map[any]any
argument is rebuilt as map[string]any (failing on a non-string key); any
other argument passes through. -/
def convertMapKeys : MarshalArg → Except XError MarshalArg
  | .mapAnyAny entries =>
    match mapKeysToStrings entries with
    | .error e => .error e
    | .ok m2 => .ok (.mapStringAny m2)
  | v => .ok v

/-- source JSON.Marshal (fn_json.go): the map[any]any normalization runs
BEFORE the gate check, so a call that will be denied still computes first and
a map with a non-string key fails with a non-permission error even when
(json, Marshal) is not in the capability set.  The host json.Marshal
encoder is passed in as host. -/
def JSON.Marshal (host : MarshalArg → Except XError String) (ctx : JSON)
    (v : MarshalArg) : Except XError String :=
  match convertMapKeys v with
  | .error e => .error e
  | .ok v2 =>
    if funcs.JSONMarshal ∉ ctx.allowedFunctionSet then
      .error (.funcNotAllowed funcs.JSONMarshal)
    else host v2

/-! ### Control signal interception (src/fn_tmpl.go, src/execute.go) -/

/-- Go's %q of a template name (escape sequences inside the name are not
modelled). -/
def goQuote (s : String) : String := "\"" ++ s ++ "\""

/-- source Tmpl.Exec: runs the named sub-template through the host
evaluator — whose outcome, the bytes it wrote to the local buffer and its
returned error, is passed in as hostBuf/hostErr — then intercepts a
ReturnError found by errors.As, rendering its value with fmt.Sprint; any
other error is wrapped and propagated.  Note: unlike every other operation,
no gate check is performed. -/
def Tmpl.Exec (ctx : Tmpl) (name : String) (hostBuf : String) (hostErr : Option XError) :
    Except XError String :=
  match hostErr with
  | none => .ok hostBuf
  | some e =>
    match asReturnError e with
    | some v => .ok (sprintValue v)
    | none => .error (.wrapped ("failed to execute partial template " ++ goQuote name) e)

/-- source finishExecute: at the top level a ReturnError found by errors.As
is printed to the writer (appended to whatever was already written) and
reported as success; any other error is wrapped and reported while the
writer keeps its partial output.  Arguments are the error of the host
execution and the writer contents at that point; the result is the final
writer contents and the returned error. -/
def finishExecute (err : Option XError) (wr : String) : String × Option XError :=
  match err with
  | none => (wr, none)
  | some e =>
    match asReturnError e with
    | some v => (wr ++ sprintValue v, none)
    | none => (wr, some (.wrapped "failed to execute template: " e))

/-- source Execute: the host t.Execute outcome (bytes written, returned
error) finished by finishExecute. -/
def Execute (hostOut : String) (hostErr : Option XError) : String × Option XError :=
  finishExecute hostErr hostOut

/-- source ExecuteTemplate: identical interception for the named-template
entry point. -/
def ExecuteTemplate (hostOut : String) (hostErr : Option XError) : String × Option XError :=
  finishExecute hostErr hostOut

/-! ### Capability set construction and the function map (FuncMap) -/

/-- Go map lookup in the registry. -/
def lookupNamespace (registry : List (String × List String)) (ns : String) :
    Option (List String) :=
  match registry.find? (fun p => p.1 == ns) with
  | some p => some p.2
  | none => none

/-- Insertion into a Go map modelled as a duplicate-free list: a present key
is left in place. -/
def insertIfAbsent {α : Type} [DecidableEq α] (x : α) (l : List α) : List α :=
  if x ∈ l then l else l ++ [x]

/-- The loop body of createAllowedFunctionSet: look the descriptor's
namespace up in the registry, then the operation inside the namespace; on
either miss the descriptor is silently dropped, otherwise both the namespace
set and the function set gain an entry. -/
def casStep (registry : List (String × List String))
    (acc : List String × List Func) (allowedFunction : Func) : List String × List Func :=
  match lookupNamespace registry allowedFunction.Namespace with
  | none => acc
  | some nsSet =>
    if allowedFunction.Name ∈ nsSet then
      (insertIfAbsent allowedFunction.Namespace acc.1,
       insertIfAbsent ⟨allowedFunction.Namespace, allowedFunction.Name⟩ acc.2)
    else acc

/-- source createAllowedFunctionSet: expand every AllowedFunctions value
(each is already its Functions() list here), then run the accumulation loop
over the concatenation, starting from empty sets. -/
def createAllowedFunctionSet (registry : List (String × List String))
    (allowedFunctions : List (List Func)) : List String × List Func :=
  let allFunctions := allowedFunctions.flatten
  allFunctions.foldl (casStep registry) ([], [])

/-- Whether the registry knows this (namespace, operation) pair. -/
def recognized (registry : List (String × List String)) (f : Func) : Bool :=
  match lookupNamespace registry f.Namespace with
  | none => false
  | some ops => decide (f.Name ∈ ops)

/-- The return entry of FuncMap: no gate check, always the ReturnError
signal carrying the argument. -/
def returnFunc (value : Value) : Except XError Value := .error (.returnErr value)

/-- source FuncMap, restricted to the identifiers it registers: the
unconditional return entry followed by one entry per namespace whose
namespace set membership test succeeds, in source order. -/
def FuncMapKeys (allowedFunctions : List (List Func)) : List String :=
  let nsSet := (createAllowedFunctionSet funcs.NamespacesAndTheirFunctions allowedFunctions).1
  "return" ::
    ((if "conv" ∈ nsSet then ["conv"] else []) ++
     (if "cmp" ∈ nsSet then ["cmp"] else []) ++
     (if "dict" ∈ nsSet then ["dict"] else []) ++
     (if "filepath" ∈ nsSet then ["filepath"] else []) ++
     (if "json" ∈ nsSet then ["json"] else []) ++
     (if "os" ∈ nsSet then ["os"] else []) ++
     (if "path" ∈ nsSet then ["path"] else []) ++
     (if "regexp" ∈ nsSet then ["regexp"] else []) ++
     (if "slice" ∈ nsSet then ["slice"] else []) ++
     (if "strings" ∈ nsSet then ["strings"] else []) ++
     (if "tmpl" ∈ nsSet then ["tmpl"] else []) ++
     (if "url" ∈ nsSet then ["url"] else []))

/-- Modelled from the claim's words, for comparison with uniqSlice: keep the
first occurrence of each distinct element, in the order first occurrences
appear. -/
def specFirstOccurrences {α : Type} [DecidableEq α] (l : List α) : List α :=
  l.foldl (fun acc v => if v ∈ acc then acc else acc ++ [v]) []

/-- The input kinds the coercion engine's reflect switches have no case for:
the untyped nil interface and every kind collapsed into `other` (maps,
structs, channels, functions, complex numbers). -/
def Value.unsupportedKind : Value → Bool
  | .nilV => true
  | .other _ => true
  | _ => false

/-! ## Helper lemmas -/

theorem mem_insertIfAbsent {α : Type} [DecidableEq α] (x y : α) (l : List α) :
    x ∈ insertIfAbsent y l ↔ x = y ∨ x ∈ l := by
  unfold insertIfAbsent
  split
  · rename_i hy
    constructor
    · exact fun hx => Or.inr hx
    · rintro (rfl | hx)
      · exact hy
      · exact hx
  · simp [or_comm]

theorem casStep_eq (registry : List (String × List String))
    (acc : List String × List Func) (f : Func) :
    casStep registry acc f =
      if recognized registry f then
        (insertIfAbsent f.Namespace acc.1, insertIfAbsent ⟨f.Namespace, f.Name⟩ acc.2)
      else acc := by
  unfold casStep recognized
  cases h : lookupNamespace registry f.Namespace with
  | none => simp [h]
  | some ops =>
    simp only [h]
    split <;> simp_all

theorem mem_foldl_casStep_snd (registry : List (String × List String)) :
    ∀ (l : List Func) (acc : List String × List Func) (f : Func),
      f ∈ (l.foldl (casStep registry) acc).2 ↔
        f ∈ acc.2 ∨ (f ∈ l ∧ recognized registry f = true)
  | [], acc, f => by simp
  | a :: rest, acc, f => by
    rw [List.foldl_cons, mem_foldl_casStep_snd registry rest _ f, casStep_eq]
    by_cases hrec : recognized registry a = true
    · rw [if_pos hrec]
      have ea : (⟨a.Namespace, a.Name⟩ : Func) = a := rfl
      rw [ea]
      rw [show (insertIfAbsent a.Namespace acc.1, insertIfAbsent a acc.2).2 =
            insertIfAbsent a acc.2 from rfl]
      rw [mem_insertIfAbsent]
      constructor
      · rintro ((rfl | hf) | ⟨hr, hrecf⟩)
        · exact Or.inr ⟨List.mem_cons_self _ _, hrec⟩
        · exact Or.inl hf
        · exact Or.inr ⟨List.mem_cons_of_mem a hr, hrecf⟩
      · rintro (hf | ⟨hmem, hrecf⟩)
        · exact Or.inl (Or.inr hf)
        · rcases List.mem_cons.mp hmem with rfl | hr
          · exact Or.inl (Or.inl rfl)
          · exact Or.inr ⟨hr, hrecf⟩
    · rw [if_neg hrec]
      constructor
      · rintro (hf | ⟨hr, hrecf⟩)
        · exact Or.inl hf
        · exact Or.inr ⟨List.mem_cons_of_mem a hr, hrecf⟩
      · rintro (hf | ⟨hmem, hrecf⟩)
        · exact Or.inl hf
        · rcases List.mem_cons.mp hmem with rfl | hr
          · exact absurd hrecf hrec
          · exact Or.inr ⟨hr, hrecf⟩

theorem mem_foldl_casStep_fst (registry : List (String × List String)) :
    ∀ (l : List Func) (acc : List String × List Func) (ns : String),
      ns ∈ (l.foldl (casStep registry) acc).1 ↔
        ns ∈ acc.1 ∨ ∃ f, f ∈ l ∧ recognized registry f = true ∧ ns = f.Namespace
  | [], acc, ns => by simp
  | a :: rest, acc, ns => by
    rw [List.foldl_cons, mem_foldl_casStep_fst registry rest _ ns, casStep_eq]
    by_cases hrec : recognized registry a = true
    · rw [if_pos hrec]
      rw [show (insertIfAbsent a.Namespace acc.1,
            insertIfAbsent ⟨a.Namespace, a.Name⟩ acc.2).1 =
            insertIfAbsent a.Namespace acc.1 from rfl]
      rw [mem_insertIfAbsent]
      constructor
      · rintro ((hns | hf) | ⟨f, hr, hrecf, hnsf⟩)
        · exact Or.inr ⟨a, List.mem_cons_self a rest, hrec, hns⟩
        · exact Or.inl hf
        · exact Or.inr ⟨f, List.mem_cons_of_mem a hr, hrecf, hnsf⟩
      · rintro (hf | ⟨f, hmem, hrecf, hnsf⟩)
        · exact Or.inl (Or.inr hf)
        · rcases List.mem_cons.mp hmem with rfl | hr
          · exact Or.inl (Or.inl hnsf)
          · exact Or.inr ⟨f, hr, hrecf, hnsf⟩
    · rw [if_neg hrec]
      constructor
      · rintro (hf | ⟨f, hr, hrecf, hnsf⟩)
        · exact Or.inl hf
        · exact Or.inr ⟨f, List.mem_cons_of_mem a hr, hrecf, hnsf⟩
      · rintro (hf | ⟨f, hmem, hrecf, hnsf⟩)
        · exact Or.inl hf
        · rcases List.mem_cons.mp hmem with rfl | hr
          · exact absurd hrecf hrec
          · exact Or.inr ⟨f, hr, hrecf, hnsf⟩

theorem mem_functionSet_iff (registry : List (String × List String))
    (D : List (List Func)) (f : Func) :
    f ∈ (createAllowedFunctionSet registry D).2 ↔
      f ∈ D.flatten ∧ recognized registry f = true := by
  unfold createAllowedFunctionSet
  rw [mem_foldl_casStep_snd]
  simp

theorem mem_namespaceSet_iff (registry : List (String × List String))
    (D : List (List Func)) (ns : String) :
    ns ∈ (createAllowedFunctionSet registry D).1 ↔
      ∃ f, f ∈ D.flatten ∧ recognized registry f = true ∧ ns = f.Namespace := by
  unfold createAllowedFunctionSet
  rw [mem_foldl_casStep_fst]
  simp

theorem namespaceSet_iff_functionSet (registry : List (String × List String))
    (D : List (List Func)) (ns : String) :
    ns ∈ (createAllowedFunctionSet registry D).1 ↔
      ∃ f, f ∈ (createAllowedFunctionSet registry D).2 ∧ f.Namespace = ns := by
  rw [mem_namespaceSet_iff]
  constructor
  · rintro ⟨f, hmem, hrec, rfl⟩
    exact ⟨f, (mem_functionSet_iff registry D f).mpr ⟨hmem, hrec⟩, rfl⟩
  · rintro ⟨f, hf, rfl⟩
    obtain ⟨hmem, hrec⟩ := (mem_functionSet_iff registry D f).mp hf
    exact ⟨f, hmem, hrec, rfl⟩

theorem mem_if_singleton {c : Prop} [Decidable c] {a b : String} :
    (a ∈ if c then [b] else []) ↔ c ∧ a = b := by
  split <;> simp_all

theorem mem_FuncMapKeys_iff (D : List (List Func)) (ns : String)
    (hns : ns ∈ funcs.registryNamespaces) :
    ns ∈ FuncMapKeys D ↔
      ns ∈ (createAllowedFunctionSet funcs.NamespacesAndTheirFunctions D).1 := by
  simp only [funcs.registryNamespaces, funcs.NamespacesAndTheirFunctions, List.map_cons,
    List.mem_cons, List.map_nil, List.not_mem_nil, or_false] at hns
  rcases hns with rfl | rfl | rfl | rfl | rfl | rfl | rfl | rfl | rfl | rfl | rfl | rfl <;>
    simp [FuncMapKeys, mem_if_singleton, List.mem_append]

theorem goSliceSort_sorted {α : Type} [LinearOrder α] (l : List α) :
    (goSliceSort l).Sorted (fun a b => a ≤ b) :=
  List.sorted_insertionSort _ l

theorem goSliceSort_perm {α : Type} [LinearOrder α] (l : List α) :
    (goSliceSort l).Perm l :=
  List.perm_insertionSort _ l

theorem uniqSliceAux_sublist {α : Type} [DecidableEq α] :
    ∀ (l seen : List α), (uniqSliceAux seen l).Sublist l
  | [], _ => by simp [uniqSliceAux]
  | v :: rest, seen => by
    simp only [uniqSliceAux]
    split
    · exact (uniqSliceAux_sublist rest seen).cons v
    · exact (uniqSliceAux_sublist rest (v :: seen)).cons₂ v

theorem mem_uniqSliceAux {α : Type} [DecidableEq α] :
    ∀ (l seen : List α) (x : α), x ∈ uniqSliceAux seen l ↔ x ∈ l ∧ x ∉ seen
  | [], _, x => by simp [uniqSliceAux]
  | v :: rest, seen, x => by
    simp only [uniqSliceAux]
    split
    · rename_i hv
      rw [mem_uniqSliceAux rest seen x, List.mem_cons]
      constructor
      · rintro ⟨hx, hns⟩
        exact ⟨Or.inr hx, hns⟩
      · rintro ⟨rfl | hx, hns⟩
        · exact absurd hv hns
        · exact ⟨hx, hns⟩
    · rename_i hv
      simp only [List.mem_cons, mem_uniqSliceAux rest (v :: seen) x]
      constructor
      · rintro (rfl | ⟨hx, hns⟩)
        · exact ⟨Or.inl rfl, hv⟩
        · exact ⟨Or.inr hx, fun hs => hns (Or.inr hs)⟩
      · rintro ⟨hor, hns⟩
        by_cases hxv : x = v
        · exact Or.inl hxv
        · rcases hor with h1 | hx
          · exact absurd h1 hxv
          · exact Or.inr ⟨hx, fun hs => (hs.elim hxv hns)⟩

theorem nodup_uniqSliceAux {α : Type} [DecidableEq α] :
    ∀ (l seen : List α), (uniqSliceAux seen l).Nodup
  | [], _ => by simp [uniqSliceAux]
  | v :: rest, seen => by
    simp only [uniqSliceAux]
    split
    · exact nodup_uniqSliceAux rest seen
    · refine List.nodup_cons.mpr ⟨?_, nodup_uniqSliceAux rest (v :: seen)⟩
      intro hv
      exact ((mem_uniqSliceAux rest (v :: seen) v).mp hv).2 (List.mem_cons_self v seen)

theorem foldl_firstOcc_eq_uniqSliceAux {α : Type} [DecidableEq α] :
    ∀ (l acc seen : List α), (∀ x, x ∈ seen ↔ x ∈ acc) →
      l.foldl (fun acc v => if v ∈ acc then acc else acc ++ [v]) acc =
        acc ++ uniqSliceAux seen l
  | [], acc, _, _ => by simp [uniqSliceAux]
  | v :: rest, acc, seen, hiff => by
    simp only [List.foldl_cons, uniqSliceAux]
    by_cases hv : v ∈ seen
    · rw [if_pos ((hiff v).mp hv), if_pos hv]
      exact foldl_firstOcc_eq_uniqSliceAux rest acc seen hiff
    · rw [if_neg (fun hacc => hv ((hiff v).mpr hacc)), if_neg hv,
        foldl_firstOcc_eq_uniqSliceAux rest (acc ++ [v]) (v :: seen)
          (fun x => by rw [List.mem_cons, List.mem_append, List.mem_singleton, hiff x, or_comm])]
      simp

theorem uniqSlice_eq_specFirstOccurrences {α : Type} [DecidableEq α] (l : List α) :
    uniqSlice l = specFirstOccurrences l := by
  have h := foldl_firstOcc_eq_uniqSliceAux l [] [] (fun x => Iff.rfl)
  simpa [specFirstOccurrences, uniqSlice] using h.symm

theorem uniqSlice_props {α : Type} [DecidableEq α] (l : List α) :
    uniqSlice l = specFirstOccurrences l ∧ (uniqSlice l).Nodup ∧
      (uniqSlice l).Sublist l ∧ ∀ x, x ∈ uniqSlice l ↔ x ∈ l :=
  ⟨uniqSlice_eq_specFirstOccurrences l, nodup_uniqSliceAux l [],
   uniqSliceAux_sublist l [],
   fun x => by rw [uniqSlice, mem_uniqSliceAux l [] x]; simp⟩

/-! ## Claim theorems -/

/-- C1 (amended): with exactly three exceptions, every modelled exposed
operation performs the capability check before anything else: whenever its
(namespace, operation) pair is missing from the set, the call returns exactly
the typed FuncNotAllowedError naming that pair, independent of its arguments
(and, for url.JoinPath, of the host function, so no host computation can have
happened), and leaves the slice argument's backing storage unchanged.  The
exceptions, exhibited by the final conjuncts and the counterexample:
tmpl.Exec and strings.IndexAny perform no gate check at all — they run to
completion under every capability set — and json.Marshal normalizes its
map argument before its gate check, so a denied call still computes and a
non-string map key yields its non-permission error even when (json, Marshal)
is missing from the set. -/
theorem gated_operations_deny_before_computing (ctx : rootContext) :
    (∀ v, funcs.ConvToBool ∉ ctx.allowedFunctionSet →
      Conv.ToBool ctx v = .error (.funcNotAllowed funcs.ConvToBool)) ∧
    (∀ l, funcs.ConvToBools ∉ ctx.allowedFunctionSet →
      Conv.ToBools ctx l = .error (.funcNotAllowed funcs.ConvToBools)) ∧
    (∀ v, funcs.ConvToString ∉ ctx.allowedFunctionSet →
      Conv.ToString ctx v = .error (.funcNotAllowed funcs.ConvToString)) ∧
    (∀ v, funcs.ConvToFloat64 ∉ ctx.allowedFunctionSet →
      Conv.ToFloat64 ctx v = .error (.funcNotAllowed funcs.ConvToFloat64)) ∧
    (∀ v, funcs.ConvToFloat32 ∉ ctx.allowedFunctionSet →
      Conv.ToFloat32 ctx v = .error (.funcNotAllowed funcs.ConvToFloat32)) ∧
    (∀ v, funcs.ConvToInt64 ∉ ctx.allowedFunctionSet →
      Conv.ToInt64 ctx v = .error (.funcNotAllowed funcs.ConvToInt64)) ∧
    (∀ v, funcs.ConvToInt32 ∉ ctx.allowedFunctionSet →
      Conv.ToInt32 ctx v = .error (.funcNotAllowed funcs.ConvToInt32)) ∧
    (∀ v, funcs.ConvToInt16 ∉ ctx.allowedFunctionSet →
      Conv.ToInt16 ctx v = .error (.funcNotAllowed funcs.ConvToInt16)) ∧
    (∀ v, funcs.ConvToInt8 ∉ ctx.allowedFunctionSet →
      Conv.ToInt8 ctx v = .error (.funcNotAllowed funcs.ConvToInt8)) ∧
    (∀ v, funcs.ConvToInt ∉ ctx.allowedFunctionSet →
      Conv.ToInt ctx v = .error (.funcNotAllowed funcs.ConvToInt)) ∧
    (∀ v, funcs.ConvToUint64 ∉ ctx.allowedFunctionSet →
      Conv.ToUint64 ctx v = .error (.funcNotAllowed funcs.ConvToUint64)) ∧
    (∀ v, funcs.ConvToUint32 ∉ ctx.allowedFunctionSet →
      Conv.ToUint32 ctx v = .error (.funcNotAllowed funcs.ConvToUint32)) ∧
    (∀ v, funcs.ConvToUint16 ∉ ctx.allowedFunctionSet →
      Conv.ToUint16 ctx v = .error (.funcNotAllowed funcs.ConvToUint16)) ∧
    (∀ v, funcs.ConvToUint8 ∉ ctx.allowedFunctionSet →
      Conv.ToUint8 ctx v = .error (.funcNotAllowed funcs.ConvToUint8)) ∧
    (∀ v, funcs.ConvToUint ∉ ctx.allowedFunctionSet →
      Conv.ToUint ctx v = .error (.funcNotAllowed funcs.ConvToUint)) ∧
    (∀ vals, funcs.SliceNew ∉ ctx.allowedFunctionSet →
      Slice.New ctx vals = .error (.funcNotAllowed funcs.SliceNew)) ∧
    (∀ s, funcs.SliceSort ∉ ctx.allowedFunctionSet →
      Slice.SortOp ctx s = (.error (.funcNotAllowed funcs.SliceSort), s)) ∧
    (∀ s, funcs.SliceUnique ∉ ctx.allowedFunctionSet →
      Slice.Unique ctx s = (.error (.funcNotAllowed funcs.SliceUnique), s)) ∧
    (∀ host base elems, funcs.URLJoinPath ∉ ctx.allowedFunctionSet →
      URL.JoinPath host ctx base elems = .error (.funcNotAllowed funcs.URLJoinPath)) ∧
    (∀ host s1 chars, Strings.IndexAny host ctx s1 chars = .ok (host s1 chars)) ∧
    (∀ host v e, convertMapKeys v = .error e → JSON.Marshal host ctx v = .error e) ∧
    (∀ host v v2, funcs.JSONMarshal ∉ ctx.allowedFunctionSet → convertMapKeys v = .ok v2 →
      JSON.Marshal host ctx v = .error (.funcNotAllowed funcs.JSONMarshal)) := by
  refine ⟨?_, ?_, ?_, ?_, ?_, ?_, ?_, ?_, ?_, ?_, ?_, ?_, ?_, ?_, ?_, ?_, ?_, ?_, ?_, ?_,
      ?_, ?_⟩ <;>
    intros <;>
    simp [Conv.ToBool, Conv.ToBools, Conv.ToString, Conv.ToFloat64, Conv.ToFloat32,
      Conv.ToInt64, Conv.ToInt32, Conv.ToInt16, Conv.ToInt8, Conv.ToInt,
      Conv.ToUint64, Conv.ToUint32, Conv.ToUint16, Conv.ToUint8, Conv.ToUint,
      Slice.New, Slice.SortOp, Slice.Unique, URL.JoinPath, Strings.IndexAny,
      JSON.Marshal, *]

/-- C1 witness: with the empty capability set, conv.ToBool is denied with the
typed error naming (conv, ToBool). -/
theorem gated_operations_deny_before_computing_witness :
    Conv.ToBool ⟨[]⟩ (.boolean true) = .error (.funcNotAllowed funcs.ConvToBool) :=
  (gated_operations_deny_before_computing ⟨[]⟩).1 (.boolean true) (by decide)

/-- C1 counterexample: tmpl.Exec performs no gate check — with a capability
set that does not contain (tmpl, Exec) the call still runs to completion and
returns the sub-template's output instead of any error. -/
theorem tmpl_exec_has_no_gate_check :
    funcs.TmplExec ∉ ([] : List Func) ∧
    Tmpl.Exec ⟨[]⟩ "T1" "partial output" none = .ok "partial output" ∧
    ∀ e : XError, Tmpl.Exec ⟨[]⟩ "T1" "partial output" none ≠ .error e := by
  refine ⟨by decide, rfl, ?_⟩
  intro e h
  simp [Tmpl.Exec] at h

set_option maxRecDepth 5500 in
/-- C2 (code bug): the decimal string of 2^63 — the rendering of the first
integer beyond the signed 64-bit range — is accepted by strToInt64 with a nil
error: ParseInt fails with a range error, the ParseFloat fallback succeeds,
and Go's int64(float64) cast silently produces an implementation-dependent
in-range value (math.MinInt64 on amd64) instead of the overflow failure the
claim requires.  conv.ToInt64 therefore returns it as a success. -/
theorem toInt64_accepts_out_of_range_decimal :
    strToInt64 "9223372036854775808" = .ok (-9223372036854775808) ∧
    Conv.ToInt64 ⟨[funcs.ConvToInt64]⟩ (.str "9223372036854775808") =
      .ok (-9223372036854775808) := by
  exact ⟨rfl, rfl⟩

/-- C3 counterexample: for the bool coercion target an unsupported input kind
(here a map value) does not fail with any error — the call succeeds with the
default value false; the string target likewise succeeds with the formatted
text. -/
theorem toBool_returns_default_on_unsupported_kind :
    Value.unsupportedKind (.other "map[one:1]") = true ∧
    Conv.ToBool ⟨[funcs.ConvToBool]⟩ (.other "map[one:1]") = .ok false ∧
    Conv.ToString ⟨[funcs.ConvToString]⟩ (.other "map[one:1]") = .ok "map[one:1]" :=
  ⟨rfl, rfl, rfl⟩

/-- C3 (amended): for every numeric coercion target — each signed and
unsigned integer width and both float widths — an input of an unsupported
kind fails with a conversion error carrying the offending value and the
target type rather than returning a default value; the bool and string
targets are total instead: an unsupported kind coerces to false and to its
formatted text respectively. -/
theorem numeric_coercions_fail_on_unsupported_kind (v : Value)
    (h : v.unsupportedKind = true) :
    toInt64 v = .error (.convValFailed v "int64") ∧
    toUint64 v = .error (.convValFailed v "int64") ∧
    (∀ lo hi, toInt v lo hi = .error (.convValFailed v "int64")) ∧
    (∀ m, toUint v m = .error (.convValFailed v "int64")) ∧
    toFloat64 v = .error (.convValFailed v "float64") ∧
    toFloat32 v = .error (.convValFailed v "float64") ∧
    toBool v = false ∧
    (v = .nilV ∧ toString v = "" ∨ ∃ r, v = .other r ∧ toString v = r) := by
  cases v <;>
    simp_all [Value.unsupportedKind, toInt64, toUint64, toInt, toUint, toFloat64,
      toFloat32, toBool, toString, sprintValue]

/-- C3 witness: the numeric targets all reject a map value with the typed
conversion error. -/
theorem numeric_coercions_fail_on_unsupported_kind_witness :
    toFloat64 (.other "map[one:1]") = .error (.convValFailed (.other "map[one:1]") "float64") ∧
    toInt (.other "map[one:1]") (-128) 127 =
      .error (.convValFailed (.other "map[one:1]") "int64") :=
  ⟨(numeric_coercions_fail_on_unsupported_kind (.other "map[one:1]") rfl).2.2.2.2.1,
   (numeric_coercions_fail_on_unsupported_kind (.other "map[one:1]") rfl).2.2.1 (-128) 127⟩

/-- C4: at a sub-evaluation boundary Tmpl.Exec reports the host's buffer on
normal completion, converts a ReturnError found anywhere in the error's
unwrap chain into the ordinary successful result carrying the returned value
rendered with fmt.Sprint, and propagates every other error (including a
raised one) as a failure wrapping the original. -/
theorem tmpl_exec_intercepts_return_only (ctx : Tmpl) (name hostBuf : String) :
    Tmpl.Exec ctx name hostBuf none = .ok hostBuf ∧
    (∀ e v, asReturnError e = some v →
      Tmpl.Exec ctx name hostBuf (some e) = .ok (sprintValue v)) ∧
    (∀ e, asReturnError e = none →
      Tmpl.Exec ctx name hostBuf (some e) =
        .error (.wrapped ("failed to execute partial template " ++ goQuote name) e)) := by
  refine ⟨rfl, ?_, ?_⟩
  · intro e v h
    simp [Tmpl.Exec, h]
  · intro e h
    simp [Tmpl.Exec, h]

/-- C4 witness: a sub-template that returned early with the string value
Anonymous (the signal wrapped by the evaluator, as errors.As unwraps it)
makes the sub-evaluation succeed with exactly that string. -/
theorem tmpl_exec_intercepts_return_only_witness :
    Tmpl.Exec ⟨[]⟩ "getName" ""
      (some (.wrapped "template: calling return" (.returnErr (.str "Anonymous")))) =
      .ok "Anonymous" :=
  (tmpl_exec_intercepts_return_only ⟨[]⟩ "getName" "").2.1
    (.wrapped "template: calling return" (.returnErr (.str "Anonymous")))
    (.str "Anonymous") rfl

/-- C5: the top-level wrappers Execute and ExecuteTemplate report success on
normal completion; when evaluation ended in a return signal they report
success and the writer holds everything emitted before the signal followed by
the returned value rendered; on any other error they report an execution
error and the writer keeps exactly the partial output emitted before it. -/
theorem execute_wrapper_preserves_partial_output (emitted : String) :
    Execute emitted none = (emitted, none) ∧
    ExecuteTemplate emitted none = (emitted, none) ∧
    (∀ e v, asReturnError e = some v →
      Execute emitted (some e) = (emitted ++ sprintValue v, none) ∧
      ExecuteTemplate emitted (some e) = (emitted ++ sprintValue v, none)) ∧
    (∀ e, asReturnError e = none →
      Execute emitted (some e) =
        (emitted, some (.wrapped "failed to execute template: " e)) ∧
      ExecuteTemplate emitted (some e) =
        (emitted, some (.wrapped "failed to execute template: " e))) := by
  refine ⟨rfl, rfl, ?_, ?_⟩
  · intro e v h
    constructor <;> simp [Execute, ExecuteTemplate, finishExecute, h]
  · intro e h
    constructor <;> simp [Execute, ExecuteTemplate, finishExecute, h]

/-- C5 witness: partial output written before an early return survives, with
the returned value appended, and the wrapper reports success. -/
theorem execute_wrapper_preserves_partial_output_witness :
    Execute "Welcome, " (some (.wrapped "template: calling return"
      (.returnErr (.str "Anonymous")))) = ("Welcome, Anonymous", none) :=
  ((execute_wrapper_preserves_partial_output "Welcome, ").2.2.1
    (.wrapped "template: calling return" (.returnErr (.str "Anonymous")))
    (.str "Anonymous") rfl).1

/-- C6: for every registry and all descriptor lists D1 and D2, the capability
set built from their concatenation permits exactly the union of the pairs the
two individually built sets permit. -/
theorem capability_set_of_union_is_union (registry : List (String × List String))
    (D1 D2 : List (List Func)) (f : Func) :
    f ∈ (createAllowedFunctionSet registry (D1 ++ D2)).2 ↔
      f ∈ (createAllowedFunctionSet registry D1).2 ∨
        f ∈ (createAllowedFunctionSet registry D2).2 := by
  simp only [mem_functionSet_iff, List.flatten_append, List.mem_append]
  constructor
  · rintro ⟨h1 | h1, hrec⟩
    · exact Or.inl ⟨h1, hrec⟩
    · exact Or.inr ⟨h1, hrec⟩
  · rintro (⟨h1, hrec⟩ | ⟨h1, hrec⟩)
    · exact ⟨Or.inl h1, hrec⟩
    · exact ⟨Or.inr h1, hrec⟩

/-- C7: for every allowed-functions configuration, a namespace identifier of
the registry is a key of the function map exactly when the built capability
set permits at least one operation of that namespace; with no permitted
operation the identifier is absent from the map entirely. -/
theorem namespace_exposed_iff_operation_permitted (allowedFunctions : List (List Func))
    (ns : String) (hns : ns ∈ funcs.registryNamespaces) :
    ns ∈ FuncMapKeys allowedFunctions ↔
      ∃ f, f ∈ (createAllowedFunctionSet funcs.NamespacesAndTheirFunctions allowedFunctions).2 ∧
        f.Namespace = ns := by
  rw [mem_FuncMapKeys_iff allowedFunctions ns hns,
    namespaceSet_iff_functionSet funcs.NamespacesAndTheirFunctions allowedFunctions ns]

/-- C7 witness: allowing only conv.ToBool exposes the conv namespace, and the
equivalence is witnessed at that configuration. -/
theorem namespace_exposed_iff_operation_permitted_witness :
    ("conv" ∈ FuncMapKeys [[funcs.ConvToBool]] ↔
      ∃ f, f ∈ (createAllowedFunctionSet funcs.NamespacesAndTheirFunctions [[funcs.ConvToBool]]).2 ∧
        f.Namespace = "conv") ∧
    "conv" ∈ FuncMapKeys [[funcs.ConvToBool]] ∧
    "tmpl" ∉ FuncMapKeys [[funcs.ConvToBool]] :=
  ⟨namespace_exposed_iff_operation_permitted [[funcs.ConvToBool]] "conv" (by decide),
   by decide, by decide⟩

/-- C8: with slice.Sort permitted, sorting a heterogeneous []any collection
always fails with the collection-policy error and touches nothing; sorting a
homogeneous collection of any element kind succeeds with a new ascending
slice — a sorted permutation of the input (false before true for bools) —
while the caller's slice is left unchanged. -/
theorem sort_rejects_any_and_sorts_homogeneous (ctx : Slice)
    (h : funcs.SliceSort ∈ ctx.allowedFunctionSet) :
    (∀ l, Slice.SortOp ctx (.anys l) = (.error .cannotSortAnySlice, .anys l)) ∧
    (∀ l, ∃ m, Slice.SortOp ctx (.bools l) = (.ok (.bools m), .bools l) ∧
      m.Sorted (fun a b => a ≤ b) ∧ m.Perm l) ∧
    (∀ l, ∃ m, Slice.SortOp ctx (.ints l) = (.ok (.ints m), .ints l) ∧
      m.Sorted (fun a b => a ≤ b) ∧ m.Perm l) ∧
    (∀ l, ∃ m, Slice.SortOp ctx (.int8s l) = (.ok (.int8s m), .int8s l) ∧
      m.Sorted (fun a b => a ≤ b) ∧ m.Perm l) ∧
    (∀ l, ∃ m, Slice.SortOp ctx (.int16s l) = (.ok (.int16s m), .int16s l) ∧
      m.Sorted (fun a b => a ≤ b) ∧ m.Perm l) ∧
    (∀ l, ∃ m, Slice.SortOp ctx (.int32s l) = (.ok (.int32s m), .int32s l) ∧
      m.Sorted (fun a b => a ≤ b) ∧ m.Perm l) ∧
    (∀ l, ∃ m, Slice.SortOp ctx (.int64s l) = (.ok (.int64s m), .int64s l) ∧
      m.Sorted (fun a b => a ≤ b) ∧ m.Perm l) ∧
    (∀ l, ∃ m, Slice.SortOp ctx (.uint8s l) = (.ok (.uint8s m), .uint8s l) ∧
      m.Sorted (fun a b => a ≤ b) ∧ m.Perm l) ∧
    (∀ l, ∃ m, Slice.SortOp ctx (.uint16s l) = (.ok (.uint16s m), .uint16s l) ∧
      m.Sorted (fun a b => a ≤ b) ∧ m.Perm l) ∧
    (∀ l, ∃ m, Slice.SortOp ctx (.uint32s l) = (.ok (.uint32s m), .uint32s l) ∧
      m.Sorted (fun a b => a ≤ b) ∧ m.Perm l) ∧
    (∀ l, ∃ m, Slice.SortOp ctx (.uint64s l) = (.ok (.uint64s m), .uint64s l) ∧
      m.Sorted (fun a b => a ≤ b) ∧ m.Perm l) ∧
    (∀ l, ∃ m, Slice.SortOp ctx (.strs l) = (.ok (.strs m), .strs l) ∧
      m.Sorted (fun a b => a ≤ b) ∧ m.Perm l) ∧
    (∀ l, ∃ m, Slice.SortOp ctx (.float32s l) = (.ok (.float32s m), .float32s l) ∧
      m.Sorted (fun a b => a ≤ b) ∧ m.Perm l) ∧
    (∀ l, ∃ m, Slice.SortOp ctx (.float64s l) = (.ok (.float64s m), .float64s l) ∧
      m.Sorted (fun a b => a ≤ b) ∧ m.Perm l) := by
  refine ⟨fun l => by simp [Slice.SortOp, h], ?_, ?_, ?_, ?_, ?_, ?_, ?_, ?_, ?_, ?_, ?_,
      ?_, ?_⟩ <;>
    intro l <;>
    exact ⟨goSliceSort (goClone l), by simp [Slice.SortOp, sortBool, h],
      goSliceSort_sorted _, goSliceSort_perm _⟩

/-- C8 witness: sorting a concrete int slice yields an ascending permutation
and the input slice survives unchanged. -/
theorem sort_rejects_any_and_sorts_homogeneous_witness :
    ∃ m, Slice.SortOp ⟨[funcs.SliceSort]⟩ (.ints [3, 1, 2]) = (.ok (.ints m), .ints [3, 1, 2]) ∧
      m.Sorted (fun a b => a ≤ b) ∧ m.Perm [3, 1, 2] :=
  (sort_rejects_any_and_sorts_homogeneous ⟨[funcs.SliceSort]⟩ (by decide)).2.2.1 [3, 1, 2]

/-- C9: for every allowed-functions configuration — the empty one included —
the function map contains the return entry, and that entry is gated by no
capability check: applied to any value it yields the return signal carrying
exactly that value. -/
theorem return_entry_always_present_and_ungated :
    ∀ allowedFunctions : List (List Func),
      "return" ∈ FuncMapKeys allowedFunctions ∧
        ∀ value : Value, returnFunc value = .error (.returnErr value) :=
  fun _ => ⟨List.mem_cons_self _ _, fun _ => rfl⟩

/-- C10: with slice.Unique permitted, Unique on a slice of every element kind
(the heterogeneous kind included) succeeds with a new slice that is exactly
the first occurrence of each distinct element in first-appearance order — a
duplicate-free sublist of the input with the same members — while the input
slice is left unchanged. -/
theorem unique_keeps_first_occurrences (ctx : Slice)
    (h : funcs.SliceUnique ∈ ctx.allowedFunctionSet) :
    (∀ l, ∃ m, Slice.Unique ctx (.anys l) = (.ok (.anys m), .anys l) ∧
      m = specFirstOccurrences l ∧ m.Nodup ∧ m.Sublist l ∧ ∀ x, x ∈ m ↔ x ∈ l) ∧
    (∀ l, ∃ m, Slice.Unique ctx (.bools l) = (.ok (.bools m), .bools l) ∧
      m = specFirstOccurrences l ∧ m.Nodup ∧ m.Sublist l ∧ ∀ x, x ∈ m ↔ x ∈ l) ∧
    (∀ l, ∃ m, Slice.Unique ctx (.ints l) = (.ok (.ints m), .ints l) ∧
      m = specFirstOccurrences l ∧ m.Nodup ∧ m.Sublist l ∧ ∀ x, x ∈ m ↔ x ∈ l) ∧
    (∀ l, ∃ m, Slice.Unique ctx (.int8s l) = (.ok (.int8s m), .int8s l) ∧
      m = specFirstOccurrences l ∧ m.Nodup ∧ m.Sublist l ∧ ∀ x, x ∈ m ↔ x ∈ l) ∧
    (∀ l, ∃ m, Slice.Unique ctx (.int16s l) = (.ok (.int16s m), .int16s l) ∧
      m = specFirstOccurrences l ∧ m.Nodup ∧ m.Sublist l ∧ ∀ x, x ∈ m ↔ x ∈ l) ∧
    (∀ l, ∃ m, Slice.Unique ctx (.int32s l) = (.ok (.int32s m), .int32s l) ∧
      m = specFirstOccurrences l ∧ m.Nodup ∧ m.Sublist l ∧ ∀ x, x ∈ m ↔ x ∈ l) ∧
    (∀ l, ∃ m, Slice.Unique ctx (.int64s l) = (.ok (.int64s m), .int64s l) ∧
      m = specFirstOccurrences l ∧ m.Nodup ∧ m.Sublist l ∧ ∀ x, x ∈ m ↔ x ∈ l) ∧
    (∀ l, ∃ m, Slice.Unique ctx (.uint8s l) = (.ok (.uint8s m), .uint8s l) ∧
      m = specFirstOccurrences l ∧ m.Nodup ∧ m.Sublist l ∧ ∀ x, x ∈ m ↔ x ∈ l) ∧
    (∀ l, ∃ m, Slice.Unique ctx (.uint16s l) = (.ok (.uint16s m), .uint16s l) ∧
      m = specFirstOccurrences l ∧ m.Nodup ∧ m.Sublist l ∧ ∀ x, x ∈ m ↔ x ∈ l) ∧
    (∀ l, ∃ m, Slice.Unique ctx (.uint32s l) = (.ok (.uint32s m), .uint32s l) ∧
      m = specFirstOccurrences l ∧ m.Nodup ∧ m.Sublist l ∧ ∀ x, x ∈ m ↔ x ∈ l) ∧
    (∀ l, ∃ m, Slice.Unique ctx (.uint64s l) = (.ok (.uint64s m), .uint64s l) ∧
      m = specFirstOccurrences l ∧ m.Nodup ∧ m.Sublist l ∧ ∀ x, x ∈ m ↔ x ∈ l) ∧
    (∀ l, ∃ m, Slice.Unique ctx (.strs l) = (.ok (.strs m), .strs l) ∧
      m = specFirstOccurrences l ∧ m.Nodup ∧ m.Sublist l ∧ ∀ x, x ∈ m ↔ x ∈ l) ∧
    (∀ l, ∃ m, Slice.Unique ctx (.float32s l) = (.ok (.float32s m), .float32s l) ∧
      m = specFirstOccurrences l ∧ m.Nodup ∧ m.Sublist l ∧ ∀ x, x ∈ m ↔ x ∈ l) ∧
    (∀ l, ∃ m, Slice.Unique ctx (.float64s l) = (.ok (.float64s m), .float64s l) ∧
      m = specFirstOccurrences l ∧ m.Nodup ∧ m.Sublist l ∧ ∀ x, x ∈ m ↔ x ∈ l) := by
  refine ⟨?_, ?_, ?_, ?_, ?_, ?_, ?_, ?_, ?_, ?_, ?_, ?_, ?_, ?_⟩ <;>
    intro l <;>
    exact ⟨uniqSlice l, by simp [Slice.Unique, h], (uniqSlice_props l).1,
      (uniqSlice_props l).2.1, (uniqSlice_props l).2.2.1, (uniqSlice_props l).2.2.2⟩

/-- C10 witness: Unique on a concrete heterogeneous slice keeps the first
occurrences in order. -/
theorem unique_keeps_first_occurrences_witness :
    ∃ m, Slice.Unique ⟨[funcs.SliceUnique]⟩
        (.anys [.str "Hello", .str "World", .str "Hello"]) =
        (.ok (.anys m), .anys [.str "Hello", .str "World", .str "Hello"]) ∧
      m = specFirstOccurrences [.str "Hello", .str "World", .str "Hello"] ∧ m.Nodup ∧
      m.Sublist [.str "Hello", .str "World", .str "Hello"] ∧
      ∀ x, x ∈ m ↔ x ∈ [Value.str "Hello", .str "World", .str "Hello"] :=
  (unique_keeps_first_occurrences ⟨[funcs.SliceUnique]⟩ (by decide)).1
    [.str "Hello", .str "World", .str "Hello"]

end Xtemplate
